import Mathlib

/-!
Shallow embedding of `server.py` from wisxv/threaded_tcp_server.

Conventions:
* Python `str` values are modelled as `List Char` (`len` = list length, which
  matches Python's code-point count).
* Python `bytes` values are modelled as `List Nat` (one `Nat` per byte).
* The host filesystem is an association list from path strings to file bytes;
  only regular files are modelled (the quarantine directory itself is a
  precondition, per the spec's scope).
* A handler that raises an uncaught Python exception is modelled with
  `Except PyExc`.
-/

set_option maxRecDepth 10000

/-- Shorthand: the character list of a string literal. -/
def cs (s : String) : List Char := s.toList

/-- Python exceptions that the embedded handlers can raise. -/
inductive PyExc where
  | typeError
  | attributeError
deriving DecidableEq

/-- Values produced by `json.loads` (module `json`, default options).
Non-integral numeric literals are kept as their raw text in `flt`; the
embedding never computes with them. -/
inductive JVal where
  | null
  | bool (b : Bool)
  | num (n : Int)
  | flt (raw : List Char)
  | str (s : List Char)
  | arr (elems : List JVal)
  | obj (kvs : List (List Char × JVal))

/-- Python `dict.get` on a dict built from parsed JSON object members:
later duplicate keys override earlier ones. -/
def jlookup (kvs : List (List Char × JVal)) (k : List Char) : Option JVal :=
  match kvs with
  | [] => none
  | (k1, v) :: rest =>
    match jlookup rest k with
    | some v2 => some v2
    | none => if k1 = k then some v else none

/-- Python `len` on a JSON-derived value: defined for `str`, `list`, `dict`
(distinct keys); raising `TypeError` (i.e. undefined) otherwise. -/
def pyLen (v : JVal) : Option Nat :=
  match v with
  | .str s => some s.length
  | .arr xs => some xs.length
  | .obj kvs => some ((kvs.map Prod.fst).eraseDups).length
  | _ => none

/-- The filesystem: an association list from path to file bytes. -/
structure FS where
  files : List (List Char × List Nat)

def alist_find (l : List (List Char × List Nat)) (p : List Char) : Option (List Nat) :=
  match l with
  | [] => none
  | (k, v) :: rest => if k = p then some v else alist_find rest p

def alist_erase (l : List (List Char × List Nat)) (p : List Char) :
    List (List Char × List Nat) :=
  match l with
  | [] => []
  | (k, v) :: rest => if k = p then alist_erase rest p else (k, v) :: alist_erase rest p

def fsRead (fs : FS) (p : List Char) : Option (List Nat) := alist_find fs.files p

/-- `Path.exists() and Path.is_file()` for the modelled filesystem. -/
def fsIsFile (fs : FS) (p : List Char) : Bool := (fsRead fs p).isSome

/-- File contents; only used behind the `fsIsFile` guard (`open` then `read`). -/
def fsReadD (fs : FS) (p : List Char) : List Nat := (fsRead fs p).getD []

def fsSet (fs : FS) (p : List Char) (v : List Nat) : FS :=
  ⟨(p, v) :: alist_erase fs.files p⟩

/-- `shutil.move` on the same filesystem: the file leaves `src` and lands at
`dst`, overwriting an existing regular file there; `src = dst` is `os.rename`
to itself, a no-op that leaves the file in place. -/
def fsMove (fs : FS) (src dst : List Char) : FS :=
  match fsRead fs src with
  | some v => fsSet ⟨alist_erase fs.files src⟩ dst v
  | none => fs

/-- `pathlib.Path(p).name`: the final path component. -/
def basename (p : List Char) : List Char :=
  p.foldl (fun acc c => if c = '/' then [] else acc ++ [c]) []

/-- `Path(d) / n` for a simple relative/absolute `d` and bare name `n`. -/
def pathJoin (d n : List Char) : List Char := d ++ '/' :: n

/-- Hex digit value, as accepted by `bytes.fromhex`. -/
def hexDigit (c : Char) : Option Nat :=
  if '0' ≤ c ∧ c ≤ '9' then some (c.toNat - 48)
  else if 'a' ≤ c ∧ c ≤ 'f' then some (c.toNat - 87)
  else if 'A' ≤ c ∧ c ≤ 'F' then some (c.toNat - 55)
  else none

/-- ASCII whitespace skipped by `bytes.fromhex` between encoded bytes. -/
def isPySpace (c : Char) : Bool :=
  c = ' ' || c = '\t' || c = '\n' || c = '\r' || c = '\x0b' || c = '\x0c'

/-- Modelled from the Python documentation of `bytes.fromhex`: the string must
contain two hex digits per byte, with ASCII whitespace permitted around the
two-digit groups (not between the two digits of one byte). -/
def fromhex (s : List Char) : Option (List Nat) :=
  match s with
  | [] => some []
  | c :: rest =>
    if isPySpace c then fromhex rest
    else
      match hexDigit c, rest with
      | some hi, d :: rest2 =>
        match hexDigit d with
        | some lo => (fromhex rest2).map (fun bs => (hi * 16 + lo) :: bs)
        | none => none
      | _, _ => none

/-- Does `sig` occur in `data` at offset `o`? (Python `data[o:o+len(sig)] == sig`,
for offsets inside the buffer.) -/
def occB (data sig : List Nat) (o : Nat) : Bool :=
  decide ((data.drop o).take sig.length = sig)

/-- Modelled from the Python documentation of `bytes.find(sub, start)`: the
lowest index `i ≥ start` with `data[i:i+len(sub)] == sub` (so `i + len sub ≤
len data`; for an empty `sub` this is `min start (len data)` when `start ≤ len
data`), or `none` where Python returns `-1`. -/
def pyFind (data sig : List Nat) (start : Nat) : Option Nat :=
  (List.range (data.length + 1)).find? (fun i => decide (start ≤ i) && occB data sig i)

/-- The `while offset != -1` loop of `check_local_file`, collecting every hit
and restarting the search at `offset + 1`.  The loop always terminates because
each found offset is at least `start`; `fuel` just bounds the recursion and is
chosen large enough that it never runs out (`findAllLoop_eq` below holds for
every sufficient fuel). -/
def findAllLoop (data sig : List Nat) : Nat → Nat → List Nat
  | 0, _ => []
  | fuel + 1, start =>
    match pyFind data sig start with
    | none => []
    | some o => o :: findAllLoop data sig fuel (o + 1)

/-- The offsets list built by `check_local_file` (initial `data.find(signature)`
call is a search from 0). -/
def findAll (data sig : List Nat) : List Nat :=
  findAllLoop data sig (data.length + 2) 0

/-- `max_signature_len` from the `__main__` block of `server.py`. -/
def max_signature_len : Nat := 1024

/-- The `result` field of a server response: a status-code string or a list of
integer offsets. -/
inductive RVal where
  | str (s : List Char)
  | ints (l : List Nat)
deriving DecidableEq

/-- A server response `{status, result}`. -/
structure Response where
  status : Bool
  result : RVal
deriving DecidableEq

/-- `check_local_file(params)` from `server.py`.  `params` is the raw value of
the message's `params` field (`None` when the key is absent).  Mirrors the
source order: `Path(params.get('file_path'))` (raising `TypeError` on a
non-string), the `is None` test on the signature, existence, length cap, hex
decoding, then the find loop. -/
def check_local_file (fs : FS) (params : Option JVal) : Except PyExc Response :=
  match params with
  | some (.obj kvs) =>
    match jlookup kvs (cs "file_path") with
    | some (.str fp) =>
      match jlookup kvs (cs "signature") with
      | none => .ok ⟨false, .str (cs "incomplete_parameters")⟩
      | some .null => .ok ⟨false, .str (cs "incomplete_parameters")⟩
      | some sv =>
        if fsIsFile fs fp = false then .ok ⟨false, .str (cs "no_such_file")⟩
        else
          match pyLen sv with
          | none => .error .typeError
          | some len =>
            if max_signature_len * 2 < len then .ok ⟨false, .str (cs "too_big_signature")⟩
            else
              match sv with
              | .str sig =>
                match fromhex sig with
                | none => .ok ⟨false, .str (cs "not_a_signature")⟩
                | some sigBytes => .ok ⟨true, .ints (findAll (fsReadD fs fp) sigBytes)⟩
              | _ => .error .typeError
    | _ => .error .typeError
  | _ => .error .attributeError

/-- `quarantine_local_file(params)` from `server.py`.  Its own `try` block
downgrades every internal exception (missing `params`, non-string path, …)
to `{status: False, result: "error"}`, so the handler itself never raises. -/
def quarantine_local_file (qdir : List Char) (fs : FS) (params : Option JVal) :
    Except PyExc (Response × FS) :=
  match params with
  | some (.obj kvs) =>
    match jlookup kvs (cs "file_path") with
    | some (.str fp) =>
      if fsIsFile fs fp then
        .ok (⟨true, .str (cs "moved")⟩, fsMove fs fp (pathJoin qdir (basename fp)))
      else .ok (⟨false, .str (cs "no_such_file")⟩, fs)
    | _ => .ok (⟨false, .str (cs "error")⟩, fs)
  | _ => .ok (⟨false, .str (cs "error")⟩, fs)

/-- JSON whitespace (`json.decoder`: space, tab, newline, carriage return). -/
def jWs (c : Char) : Bool := c = ' ' || c = '\t' || c = '\n' || c = '\r'

def skipWs (s : List Char) : List Char :=
  match s with
  | [] => []
  | c :: rest => if jWs c then skipWs rest else c :: rest

/-- Body of a JSON string literal, after the opening quote: returns the decoded
contents and the remaining input after the closing quote.  Models
`json.decoder.py_scanstring` with `strict=True` (raw control characters are
rejected); `\u` escapes map to the scalar value (surrogate-pair recombination
is not modelled — no claim depends on it). -/
def jStringBody (s : List Char) : Option (List Char × List Char) :=
  match s with
  | [] => none
  | c :: rest =>
    if c = '"' then some ([], rest)
    else if c = '\\' then
      match rest with
      | [] => none
      | e :: rest2 =>
        if e = '"' then (jStringBody rest2).map (fun p => ('"' :: p.1, p.2))
        else if e = '\\' then (jStringBody rest2).map (fun p => ('\\' :: p.1, p.2))
        else if e = '/' then (jStringBody rest2).map (fun p => ('/' :: p.1, p.2))
        else if e = 'b' then (jStringBody rest2).map (fun p => ('\x08' :: p.1, p.2))
        else if e = 'f' then (jStringBody rest2).map (fun p => ('\x0c' :: p.1, p.2))
        else if e = 'n' then (jStringBody rest2).map (fun p => ('\n' :: p.1, p.2))
        else if e = 'r' then (jStringBody rest2).map (fun p => ('\r' :: p.1, p.2))
        else if e = 't' then (jStringBody rest2).map (fun p => ('\t' :: p.1, p.2))
        else if e = 'u' then
          match rest2 with
          | a :: b :: c2 :: d :: rest3 =>
            match hexDigit a, hexDigit b, hexDigit c2, hexDigit d with
            | some x1, some x2, some x3, some x4 =>
              (jStringBody rest3).map
                (fun p => (Char.ofNat (((x1 * 16 + x2) * 16 + x3) * 16 + x4) :: p.1, p.2))
            | _, _, _, _ => none
          | _ => none
        else none
    else if c.toNat < 32 then none
    else (jStringBody rest).map (fun p => (c :: p.1, p.2))

def natOfDigits (ds : List Char) : Nat :=
  ds.foldl (fun a c => a * 10 + (c.toNat - 48)) 0

def spanDigits (s : List Char) : List Char × List Char :=
  (s.takeWhile (fun c => c.isDigit), s.dropWhile (fun c => c.isDigit))

/-- Optional `(\.\d+)?` group of the JSON number regex: zero-width when it
does not match. -/
def jNumFrac (s : List Char) : List Char × List Char :=
  match s with
  | '.' :: t =>
    match spanDigits t with
    | ([], _) => ([], s)
    | (ds, r) => ('.' :: ds, r)
  | _ => ([], s)

/-- Optional `([eE][-+]?\d+)?` group of the JSON number regex. -/
def jNumExp (s : List Char) : List Char × List Char :=
  match s with
  | c :: t =>
    if c = 'e' ∨ c = 'E' then
      match t with
      | sgn :: t2 =>
        if sgn = '+' ∨ sgn = '-' then
          match spanDigits t2 with
          | ([], _) => ([], s)
          | (ds, r) => (c :: sgn :: ds, r)
        else
          match spanDigits t with
          | ([], _) => ([], s)
          | (ds, r) => (c :: ds, r)
      | [] => ([], s)
    else ([], s)
  | [] => ([], s)

/-- JSON number scanning, per `json.scanner.NUMBER_RE`
`(-?(?:0|[1-9]\d*))(\.\d+)?([eE][-+]?\d+)?`: integral matches become Python
ints, anything with a fraction or exponent becomes a float (kept raw). -/
def jNumber (s : List Char) : Option (JVal × List Char) :=
  let p := match s with
           | '-' :: t => (true, t)
           | _ => (false, s)
  match p.2 with
  | c :: t =>
    if c.isDigit then
      let ipr := if c = '0' then ([c], t)
                 else ((c :: (spanDigits t).1), (spanDigits t).2)
      let fr := jNumFrac ipr.2
      let ex := jNumExp fr.2
      if fr.1 = [] ∧ ex.1 = [] then
        some (.num (if p.1 then -(natOfDigits ipr.1 : Int) else (natOfDigits ipr.1 : Int)),
              ex.2)
      else
        some (.flt ((if p.1 then ['-'] else []) ++ ipr.1 ++ fr.1 ++ ex.1), ex.2)
    else none
  | [] => none

/-- Non-recursive part of the JSON scanner: strings, `null`/`true`/`false`,
numbers and the `NaN`/`Infinity` constants. -/
def scanSimple (s : List Char) : Option (JVal × List Char) :=
  match s with
  | [] => none
  | c :: rest =>
    if c = '"' then (jStringBody rest).map (fun p => (.str p.1, p.2))
    else if c = 'n' then
      match rest with
      | 'u' :: 'l' :: 'l' :: r2 => some (.null, r2)
      | _ => none
    else if c = 't' then
      match rest with
      | 'r' :: 'u' :: 'e' :: r2 => some (.bool true, r2)
      | _ => none
    else if c = 'f' then
      match rest with
      | 'a' :: 'l' :: 's' :: 'e' :: r2 => some (.bool false, r2)
      | _ => none
    else
      match jNumber (c :: rest) with
      | some vr => some vr
      | none =>
        match c :: rest with
        | 'N' :: 'a' :: 'N' :: r2 => some (.flt (cs "NaN"), r2)
        | 'I' :: 'n' :: 'f' :: 'i' :: 'n' :: 'i' :: 't' :: 'y' :: r2 =>
          some (.flt (cs "Infinity"), r2)
        | '-' :: 'I' :: 'n' :: 'f' :: 'i' :: 'n' :: 'i' :: 't' :: 'y' :: r2 =>
          some (.flt (cs "-Infinity"), r2)
        | _ => none

mutual

/-- One JSON value at the head of the input (whitespace already skipped),
modelling `json.scanner.py_make_scanner`'s `_scan_once`.  `fuel` only bounds
the recursion; every recursive step consumes input, so any fuel larger than
the input length behaves like the unbounded original. -/
def parseVal : Nat → List Char → Option (JVal × List Char)
  | 0, _ => none
  | fuel + 1, s =>
    match s with
    | [] => none
    | c :: rest =>
      if c = '\x7b' then
        match skipWs rest with
        | d :: r2 =>
          if d = '\x7d' then some (.obj [], r2)
          else (parseObjRest fuel (d :: r2)).map (fun p => (.obj p.1, p.2))
        | [] => none
      else if c = '[' then
        match skipWs rest with
        | d :: r2 =>
          if d = ']' then some (.arr [], r2)
          else (parseArrRest fuel (d :: r2)).map (fun p => (.arr p.1, p.2))
        | [] => none
      else scanSimple (c :: rest)

/-- Members of a JSON object after `{` (and after rejecting the empty-object
case), starting at a key; models `json.decoder.JSONObject`. -/
def parseObjRest : Nat → List Char → Option (List (List Char × JVal) × List Char)
  | 0, _ => none
  | fuel + 1, s =>
    match s with
    | '"' :: rest =>
      match jStringBody rest with
      | some (key, r2) =>
        match skipWs r2 with
        | ':' :: r3 =>
          match parseVal fuel (skipWs r3) with
          | some (v, r4) =>
            match skipWs r4 with
            | ',' :: r5 =>
              (parseObjRest fuel (skipWs r5)).map (fun p => ((key, v) :: p.1, p.2))
            | d :: r5 =>
              if d = '\x7d' then some ([(key, v)], r5) else none
            | [] => none
          | none => none
        | _ => none
      | none => none
    | _ => none

/-- Elements of a JSON array after `[` (nonempty case); models
`json.decoder.JSONArray`. -/
def parseArrRest : Nat → List Char → Option (List JVal × List Char)
  | 0, _ => none
  | fuel + 1, s =>
    match parseVal fuel s with
    | some (v, r) =>
      match skipWs r with
      | ',' :: r2 => (parseArrRest fuel (skipWs r2)).map (fun p => (v :: p.1, p.2))
      | ']' :: r2 => some ([v], r2)
      | _ => none
    | none => none

end

/-- `json.loads` on a text buffer: skip leading whitespace, scan one value,
allow trailing whitespace, and reject any extra data; `none` models a raised
`json.JSONDecodeError`. -/
def json_loads (s : List Char) : Option JVal :=
  match parseVal (s.length + 1) (skipWs s) with
  | some (v, rest) => if skipWs rest = [] then some v else none
  | none => none

/-- The handler table `self.commands` of `ThreadedTCPServer`: command name to
handler.  Handlers consume the raw `params` value and produce a response plus
the updated filesystem, or raise. -/
def commands (qdir : List Char) (fs : FS) (name : List Char) :
    Option (Option JVal → Except PyExc (Response × FS)) :=
  if name = cs "CheckLocalFile" then
    some (fun p => (check_local_file fs p).map (fun r => (r, fs)))
  else if name = cs "QuarantineLocalFile" then
    some (fun p => quarantine_local_file qdir fs p)
  else none

/-- Dispatch of one parsed message (`handle_client`, lines 95-110): extract
`name` and `params`, look the name up in the table, catch handler exceptions.
`none` models an uncaught exception: an unhashable `name` (a JSON array or
object) makes `command in self.commands` raise `TypeError`, which the
surrounding `except json.JSONDecodeError` does not catch. -/
def dispatch (qdir : List Char) (fs : FS) (kvs : List (List Char × JVal)) :
    Option (Response × FS) :=
  match jlookup kvs (cs "name") with
  | some (.arr _) => none
  | some (.obj _) => none
  | some (.str s) =>
    match commands qdir fs s with
    | some h =>
      match h (jlookup kvs (cs "params")) with
      | .ok rp => some rp
      | .error _ => some (⟨false, .str (cs "error")⟩, fs)
    | none => some (⟨false, .str (cs "wrong_command")⟩, fs)
  | _ => some (⟨false, .str (cs "wrong_command")⟩, fs)

/-- `buffer_limit` from `handle_client`: 1 MiB. -/
def bufferLimit : Nat := 1024 * 1024

/-- Outcome of one read cycle of `handle_client`: either the loop continues
with a new buffer (and at most one response sent), or an uncaught exception
ends the session. -/
inductive StepOut where
  | cont (buf : List Char) (resp : Option Response) (fs : FS)
  | crash (fs : FS)

/-- One read cycle of `handle_client` after a nonempty `recv`: append the
chunk, clear on overflow, try `json.loads` on the whole buffer, dispatch on
success.  A message that parses but is not a dict makes `message.get` raise
`AttributeError`, uncaught. -/
def sessionStep (qdir : List Char) (fs : FS) (buf chunk : List Char) : StepOut :=
  let buffer := buf ++ chunk
  if bufferLimit < buffer.length then .cont [] none fs
  else
    match json_loads buffer with
    | none => .cont buffer none fs
    | some (.obj kvs) =>
      match dispatch qdir fs kvs with
      | some (r, fs2) => .cont [] (some r) fs2
      | none => .crash fs
    | some _ => .crash fs

/-- Number of responses sent in one read cycle. -/
def respCount (o : StepOut) : Nat :=
  match o with
  | .cont _ none _ => 0
  | .cont _ (some _) _ => 1
  | .crash _ => 0

/-- The session loop over a sequence of nonempty reads (shutdown never
requested): the list of responses sent, in order, and the final filesystem. -/
def sessionRun (qdir : List Char) (fs : FS) (buf : List Char) :
    List (List Char) → List Response × FS
  | [] => ([], fs)
  | c :: rest =>
    match sessionStep qdir fs buf c with
    | .cont b2 oresp fs2 =>
      let t := sessionRun qdir fs2 b2 rest
      (oresp.toList ++ t.1, t.2)
    | .crash fs2 => ([], fs2)

/-- The receive-buffer contents observed at the start of each read cycle. -/
def sessionBufs (qdir : List Char) (fs : FS) (buf : List Char) :
    List (List Char) → List (List Char)
  | [] => [buf]
  | c :: rest =>
    buf :: (match sessionStep qdir fs buf c with
            | .cont b2 _ fs2 => sessionBufs qdir fs2 b2 rest
            | .crash _ => [])

/-! Concrete fixtures used by witnesses and counterexamples. -/

/-- A filesystem with one file `f` containing the bytes of `"aaaa"`. -/
def fs0 : FS := ⟨[(cs "f", [97, 97, 97, 97])]⟩

/-- A quarantine directory path. -/
def qd0 : List Char := cs "q"

/-- A filesystem whose only file already sits inside the quarantine
directory. -/
def fsq : FS := ⟨[(cs "q/f", [1])]⟩

def paramsQ : Option JVal := some (.obj [(cs "file_path", .str (cs "q/f"))])

/-- A complete JSON document that is not an object. -/
def docNum : List Char := cs "5"

/-- A complete JSON object whose `name` is unhashable (a list). -/
def docBadName : List Char := cs "\x7b\"name\":[]\x7d"

/-- A complete JSON object naming an unknown command. -/
def docWrong : List Char := cs "\x7b\"name\":\"Nope\"\x7d"

def bigN : Nat := 1048576

/-- A complete JSON object longer than the 1 MiB buffer cap:
`{"k":"aa…a"}` with `bigN` letters in the value. -/
def bigdoc : List Char :=
  '\x7b' :: '"' :: 'k' :: '"' :: ':' :: '"' :: (List.replicate bigN 'a' ++ ['"', '\x7d'])

def bigObj : JVal := .obj [(['k'], .str (List.replicate bigN 'a'))]

/-! Lemmas about the find loop. -/

/-- A successful `find?` splits its list at the first match. -/
lemma find_split {α : Type} (p : α → Bool) :
    ∀ (l : List α) (o : α), l.find? p = some o →
      ∃ l1 l2, l = l1 ++ o :: l2 ∧ (∀ x ∈ l1, p x = false) ∧ p o = true := by
  intro l
  induction l with
  | nil => intro o h; simp at h
  | cons a t ih =>
    intro o h
    by_cases hp : p a
    · rw [List.find?_cons_of_pos _ hp] at h
      obtain rfl : a = o := by injection h
      exact ⟨[], t, rfl, by simp, hp⟩
    · rw [List.find?_cons_of_neg _ hp] at h
      obtain ⟨l1, l2, hsplit, hfail, hpo⟩ := ih o h
      refine ⟨a :: l1, l2, by rw [hsplit]; rfl, ?_, hpo⟩
      intro x hx
      rcases List.mem_cons.mp hx with rfl | hx
      · exact Bool.eq_false_iff.mpr hp
      · exact hfail x hx

/-- With enough fuel, the restart-at-`offset+1` loop returns exactly the
matching offsets at least `start`, in range order. -/
lemma findAllLoop_eq (data sig : List Nat) :
    ∀ (fuel start : Nat), data.length + 2 ≤ fuel + start →
      findAllLoop data sig fuel start
        = (List.range (data.length + 1)).filter
            (fun o => decide (start ≤ o) && occB data sig o) := by
  intro fuel
  induction fuel with
  | zero =>
    intro start h
    have hnil : ((List.range (data.length + 1)).filter
        (fun o => decide (start ≤ o) && occB data sig o)) = [] := by
      apply List.filter_eq_nil_iff.mpr
      intro a ha
      have halt : a < data.length + 1 := List.mem_range.mp ha
      have : ¬ start ≤ a := by omega
      simp [this]
    rw [hnil]; rfl
  | succ f ih =>
    intro start h
    show (match pyFind data sig start with
          | none => []
          | some o => o :: findAllLoop data sig f (o + 1)) = _
    cases hf : pyFind data sig start with
    | none =>
      have hall := List.find?_eq_none.mp hf
      have hnil : ((List.range (data.length + 1)).filter
          (fun o => decide (start ≤ o) && occB data sig o)) = [] := by
        apply List.filter_eq_nil_iff.mpr
        intro a ha
        exact hall a ha
      rw [hnil]
    | some o =>
      obtain ⟨l1, l2, hsplit, hfail, hpo⟩ := find_split _ _ _ hf
      have hso : start ≤ o := by
        have := (Bool.and_eq_true _ _).mp hpo
        exact of_decide_eq_true this.1
      have hocc : occB data sig o = true := ((Bool.and_eq_true _ _).mp hpo).2
      have ho_lt : o < data.length + 1 :=
        List.mem_range.mp (List.mem_of_find?_eq_some hf)
      have hpair : (List.range (data.length + 1)).Pairwise (· < ·) :=
        List.pairwise_lt_range _
      rw [hsplit] at hpair
      have hap := List.pairwise_append.mp hpair
      have hl1 : ∀ x ∈ l1, x < o := fun x hx => hap.2.2 x hx o (by simp)
      have hl2 : ∀ y ∈ l2, o < y := (List.pairwise_cons.mp hap.2.1).1
      have ihr := ih (o + 1) (by omega)
      show o :: findAllLoop data sig f (o + 1) = _
      rw [ihr, hsplit, List.filter_append, List.filter_append]
      have h1 : l1.filter (fun x => decide (start ≤ x) && occB data sig x) = [] :=
        List.filter_eq_nil_iff.mpr (fun x hx => by simp [hfail x hx])
      have h2 : l1.filter (fun x => decide (o + 1 ≤ x) && occB data sig x) = [] := by
        apply List.filter_eq_nil_iff.mpr
        intro x hx
        have := hl1 x hx
        have : ¬ (o + 1 ≤ x) := by omega
        simp [this]
      rw [h1, h2, List.filter_cons, List.filter_cons]
      have hps : (decide (start ≤ o) && occB data sig o) = true := hpo
      have hp2 : (decide (o + 1 ≤ o) && occB data sig o) = false := by
        have : ¬ (o + 1 ≤ o) := by omega
        simp [this]
      rw [hps, hp2]
      simp only [if_true, if_false, List.nil_append]
      congr 1
      apply List.filter_congr
      intro x hx
      have hox := hl2 x hx
      have hx1 : start ≤ x := by omega
      have hx2 : o + 1 ≤ x := by omega
      simp [hx1, hx2]

/-- The complete offsets list: every in-buffer offset where the signature
occurs, ascending. -/
lemma findAll_eq_filter (data sig : List Nat) :
    findAll data sig
      = (List.range (data.length + 1)).filter (fun o => occB data sig o) := by
  rw [findAll, findAllLoop_eq data sig (data.length + 2) 0 (by omega)]
  apply List.filter_congr
  intro x _
  simp

/-- The offsets list is strictly ascending. -/
lemma findAll_pairwise (data sig : List Nat) :
    (findAll data sig).Pairwise (· < ·) := by
  rw [findAll_eq_filter]
  exact (List.pairwise_lt_range _).sublist (List.filter_sublist _)

/-! Lemmas about the JSON scanner, used to evaluate the over-cap document. -/

lemma skipWs_cons (c : Char) (rest : List Char) (h : jWs c = false) :
    skipWs (c :: rest) = c :: rest := by
  rw [skipWs.eq_def]
  simp [h]

lemma jStringBody_quote (rest : List Char) : jStringBody ('"' :: rest) = some ([], rest) := by
  rw [jStringBody.eq_def]
  rfl

lemma jStringBody_plain (c : Char) (rest : List Char) (h1 : ¬ c = '"') (h2 : ¬ c = '\\')
    (h3 : ¬ c.toNat < 32) :
    jStringBody (c :: rest) = (jStringBody rest).map (fun p => (c :: p.1, p.2)) := by
  rw [jStringBody.eq_def]
  simp only []
  rw [if_neg h1, if_neg h2, if_neg h3]

lemma jStringBody_replicate (n : Nat) (rest : List Char) :
    jStringBody (List.replicate n 'a' ++ '"' :: rest) = some (List.replicate n 'a', rest) := by
  induction n with
  | zero => simpa using jStringBody_quote rest
  | succ m ih =>
    rw [List.replicate_succ, List.cons_append,
      jStringBody_plain 'a' _ (by decide) (by decide) (by decide), ih]
    rfl

lemma parseVal_str (fuel : Nat) (tail body rest : List Char)
    (hb : jStringBody tail = some (body, rest)) :
    parseVal (fuel + 1) ('"' :: tail) = some (.str body, rest) := by
  rw [parseVal.eq_def]
  show (jStringBody tail).map (fun p => (JVal.str p.1, p.2)) = some (JVal.str body, rest)
  rw [hb]
  rfl

lemma parseObjRest_onekey (fuel : Nat) (tail body rest : List Char)
    (hb : jStringBody tail = some (body, '\x7d' :: rest)) :
    parseObjRest (fuel + 2) ('"' :: 'k' :: '"' :: ':' :: '"' :: tail)
      = some ([(['k'], .str body)], rest) := by
  have hk : jStringBody ('k' :: '"' :: ':' :: '"' :: tail)
      = some (['k'], ':' :: '"' :: tail) := by
    rw [jStringBody_plain 'k' _ (by decide) (by decide) (by decide), jStringBody_quote]
    rfl
  have hv : parseVal (fuel + 1) ('"' :: tail) = some (.str body, '\x7d' :: rest) :=
    parseVal_str fuel tail body ('\x7d' :: rest) hb
  have hs1 : skipWs (':' :: '"' :: tail) = ':' :: '"' :: tail := skipWs_cons ':' _ rfl
  have hs2 : skipWs ('"' :: tail) = '"' :: tail := skipWs_cons '"' _ rfl
  have hs3 : skipWs ('\x7d' :: rest) = '\x7d' :: rest := skipWs_cons '\x7d' _ rfl
  rw [parseObjRest.eq_def]
  simp only []
  rw [hk]
  simp only []
  rw [hs1]
  simp only []
  rw [hs2, hv]
  simp only []
  rw [hs3]
  rfl

lemma parseVal_onekey (fuel : Nat) (tail body rest : List Char)
    (hb : jStringBody tail = some (body, '\x7d' :: rest)) :
    parseVal (fuel + 3) ('\x7b' :: '"' :: 'k' :: '"' :: ':' :: '"' :: tail)
      = some (.obj [(['k'], .str body)], rest) := by
  have hs0 : skipWs ('"' :: 'k' :: '"' :: ':' :: '"' :: tail)
      = '"' :: 'k' :: '"' :: ':' :: '"' :: tail := skipWs_cons '"' _ rfl
  have ho := parseObjRest_onekey fuel tail body rest hb
  rw [show fuel + 3 = (fuel + 2) + 1 from rfl, parseVal.eq_def]
  show (match skipWs ('"' :: 'k' :: '"' :: ':' :: '"' :: tail) with
        | d :: r2 =>
          if d = '\x7d' then some (JVal.obj [], r2)
          else (parseObjRest (fuel + 2) (d :: r2)).map (fun p => (JVal.obj p.1, p.2))
        | [] => none) = some (JVal.obj [(['k'], JVal.str body)], rest)
  rw [hs0]
  simp only []
  rw [if_neg (show ¬ (('"' : Char) = '\x7d') from by decide), ho]
  rfl

lemma bigdoc_length : bigdoc.length = bigN + 8 := by
  show ('\x7b' :: '"' :: 'k' :: '"' :: ':' :: '"'
      :: (List.replicate bigN 'a' ++ ['"', '\x7d'])).length = bigN + 8
  rw [List.length_cons, List.length_cons, List.length_cons, List.length_cons,
    List.length_cons, List.length_cons, List.length_append, List.length_replicate]
  rw [show (['"', '\x7d'] : List Char).length = 2 from rfl]

/-- The over-cap fixture parses as one complete JSON object. -/
lemma json_loads_bigdoc : json_loads bigdoc = some bigObj := by
  have hp : parseVal (bigdoc.length + 1) (skipWs bigdoc) = some (bigObj, []) := by
    have hws : skipWs bigdoc = bigdoc := skipWs_cons '\x7b' _ rfl
    rw [bigdoc_length, hws]
    exact parseVal_onekey (bigN + 6) _ _ [] (jStringBody_replicate bigN ['\x7d'])
  rw [json_loads, hp]
  rfl

/-! Lemmas about the filesystem model. -/

lemma alist_find_erase_self (l : List (List Char × List Nat)) (p : List Char) :
    alist_find (alist_erase l p) p = none := by
  induction l with
  | nil => rfl
  | cons kv rest ih =>
    obtain ⟨k, v⟩ := kv
    by_cases hk : k = p
    · simp [alist_erase, hk, ih]
    · simp [alist_erase, hk, alist_find, ih]

lemma alist_find_erase_ne (l : List (List Char × List Nat)) (p q : List Char)
    (hne : q ≠ p) : alist_find (alist_erase l p) q = alist_find l q := by
  induction l with
  | nil => rfl
  | cons kv rest ih =>
    obtain ⟨k, v⟩ := kv
    by_cases hk : k = p
    · subst hk
      have : ¬ (k = q) := fun hkq => hne (hkq ▸ rfl)
      simp [alist_erase, alist_find, this, ih]
    · by_cases hq : k = q
      · subst hq
        simp [alist_erase, hk, alist_find]
      · simp [alist_erase, hk, alist_find, hq, ih]

/-- After a move to a different path, the source file is gone. -/
lemma fsMove_read_src (fs : FS) (src dst : List Char) (v : List Nat)
    (hv : fsRead fs src = some v) (hne : dst ≠ src) :
    fsRead (fsMove fs src dst) src = none := by
  rw [fsMove, hv]
  show alist_find ((dst, v) :: alist_erase (alist_erase fs.files src) dst) src = none
  rw [alist_find]
  have : ¬ (dst = src) := hne
  rw [if_neg this, alist_find_erase_ne _ _ _ (fun h => hne h.symm)]
  exact alist_find_erase_self _ _

/-- After a move, the destination holds the moved bytes. -/
lemma fsMove_read_dst (fs : FS) (src dst : List Char) (v : List Nat)
    (hv : fsRead fs src = some v) :
    fsRead (fsMove fs src dst) dst = some v := by
  rw [fsMove, hv]
  show alist_find ((dst, v) :: alist_erase (alist_erase fs.files src) dst) dst = some v
  rw [alist_find, if_pos rfl]

/-! Claim theorems. -/

/-- C1: for a params mapping whose `file_path` names an existing regular file
with bytes `data` and whose `signature` is hex text within the length cap
decoding to `sigBytes`, `check_local_file` returns `{status: true, result: L}`
where `L` is exactly the ascending list of every (possibly overlapping) offset
`o ≤ len data` with `data[o : o + len sigBytes] = sigBytes`, and `L` is empty
when there is no occurrence. -/
theorem c1_check_local_file_offsets
    (fs : FS) (kvs : List (List Char × JVal)) (fp sig : List Char)
    (data sigBytes : List Nat)
    (hfp : jlookup kvs (cs "file_path") = some (.str fp))
    (hsig : jlookup kvs (cs "signature") = some (.str sig))
    (hdata : fsRead fs fp = some data)
    (hlen : sig.length ≤ max_signature_len * 2)
    (hhex : fromhex sig = some sigBytes) :
    check_local_file fs (some (.obj kvs))
      = .ok ⟨true, .ints ((List.range (data.length + 1)).filter
          (fun o => decide ((data.drop o).take sigBytes.length = sigBytes)))⟩
    ∧ ((List.range (data.length + 1)).filter
          (fun o => decide ((data.drop o).take sigBytes.length = sigBytes))).Pairwise
        (· < ·) := by
  have hfile : fsIsFile fs fp = true := by rw [fsIsFile, hdata]; rfl
  have hrd : fsReadD fs fp = data := by rw [fsReadD, hdata]; rfl
  have hnotbig : ¬ (max_signature_len * 2 < sig.length) := by omega
  constructor
  · rw [check_local_file, hfp, hsig]
    simp only [hfile, Bool.true_eq_false, if_false, pyLen, hnotbig, if_false, hhex, hrd]
    rw [findAll_eq_filter]
    rfl
  · have := findAll_pairwise data sigBytes
    rw [findAll_eq_filter] at this
    exact this

/-- Witness for C1 at the spec's own example: file bytes `61 61 61 61`
("aaaa"), signature hex `"61"`, offsets `[0, 1, 2, 3]`. -/
theorem c1_check_local_file_offsets_witness :
    check_local_file fs0
        (some (.obj [(cs "file_path", .str (cs "f")), (cs "signature", .str (cs "61"))]))
      = .ok ⟨true, .ints [0, 1, 2, 3]⟩ := by
  have h := c1_check_local_file_offsets fs0
    [(cs "file_path", .str (cs "f")), (cs "signature", .str (cs "61"))]
    (cs "f") (cs "61") [97, 97, 97, 97] [97] rfl rfl rfl (by decide) rfl
  exact h.1.trans (by rfl)

/-- C10: an empty signature passes every validation step, and the find loop
(`data.find(b"", o+1)` succeeds at every position up to and including the file
length) returns `{status: true, result: [0, 1, ..., n]}`, a list of `n + 1`
offsets whose last element is the file length `n`. -/
theorem c10_empty_signature
    (fs : FS) (kvs : List (List Char × JVal)) (fp : List Char) (data : List Nat)
    (hfp : jlookup kvs (cs "file_path") = some (.str fp))
    (hsig : jlookup kvs (cs "signature") = some (.str []))
    (hdata : fsRead fs fp = some data) :
    check_local_file fs (some (.obj kvs))
      = .ok ⟨true, .ints (List.range (data.length + 1))⟩
    ∧ (List.range (data.length + 1)).length = data.length + 1
    ∧ (List.range (data.length + 1)).getLast? = some data.length := by
  have h := c1_check_local_file_offsets fs kvs fp [] data []
    hfp hsig hdata (by simp [max_signature_len]) rfl
  refine ⟨?_, by simp, ?_⟩
  · rw [h.1]
    have : ((List.range (data.length + 1)).filter
        (fun o => decide ((data.drop o).take ([] : List Nat).length = ([] : List Nat))))
        = List.range (data.length + 1) := by
      apply List.filter_eq_self.mpr
      intro a _
      simp
    rw [this]
  · rw [List.range_succ]
    exact List.getLast?_concat _

/-- Witness for C10: the 4-byte file `f` yields offsets `[0, 1, 2, 3, 4]`,
five offsets ending at the file length 4. -/
theorem c10_empty_signature_witness :
    check_local_file fs0
        (some (.obj [(cs "file_path", .str (cs "f")), (cs "signature", .str [])]))
      = .ok ⟨true, .ints [0, 1, 2, 3, 4]⟩ := by
  have h := c10_empty_signature fs0
    [(cs "file_path", .str (cs "f")), (cs "signature", .str [])]
    (cs "f") [97, 97, 97, 97] rfl rfl rfl
  exact h.1.trans (by rfl)

/-- C8 counterexample: the signature `"61 61"` has odd length (5) and contains
a non-hex character (a space), yet `bytes.fromhex` accepts it (whitespace is
permitted between encoded bytes), so `check_local_file` scans the file and
returns offsets instead of `"not_a_signature"`. -/
theorem c8_counterexample :
    (cs "61 61").length % 2 = 1
    ∧ (' ' ∈ cs "61 61" ∧ hexDigit ' ' = none)
    ∧ check_local_file fs0
        (some (.obj [(cs "file_path", .str (cs "f")),
                     (cs "signature", .str (cs "61 61"))]))
      = .ok ⟨true, .ints [0, 1, 2]⟩ := by
  refine ⟨rfl, ⟨by decide, rfl⟩, ?_⟩
  rfl

/-- C8 (amended): for an existing regular file and a signature within the
length cap, `check_local_file` returns `"not_a_signature"` exactly when the
signature fails to decode under Python's `bytes.fromhex` — pairs of hex
digits with ASCII whitespace permitted between the pairs.  (A signature of
odd digit count or with a non-hex, non-whitespace character fails; whitespace
between encoded bytes does not.) -/
theorem c8_not_a_signature_iff
    (fs : FS) (kvs : List (List Char × JVal)) (fp sig : List Char) (data : List Nat)
    (hfp : jlookup kvs (cs "file_path") = some (.str fp))
    (hsig : jlookup kvs (cs "signature") = some (.str sig))
    (hdata : fsRead fs fp = some data)
    (hlen : sig.length ≤ max_signature_len * 2) :
    check_local_file fs (some (.obj kvs)) = .ok ⟨false, .str (cs "not_a_signature")⟩
      ↔ fromhex sig = none := by
  have hfile : fsIsFile fs fp = true := by rw [fsIsFile, hdata]; rfl
  have hnotbig : ¬ (max_signature_len * 2 < sig.length) := by omega
  rw [check_local_file, hfp, hsig]
  simp only [hfile, Bool.true_eq_false, if_false, pyLen, hnotbig, if_false]
  cases hx : fromhex sig with
  | none => simp
  | some sigBytes => simp

/-- Witness for C8 (amended): `"zz"` does not decode, and the handler answers
`"not_a_signature"`. -/
theorem c8_not_a_signature_iff_witness :
    check_local_file fs0
        (some (.obj [(cs "file_path", .str (cs "f")), (cs "signature", .str (cs "zz"))]))
      = .ok ⟨false, .str (cs "not_a_signature")⟩ :=
  (c8_not_a_signature_iff fs0
    [(cs "file_path", .str (cs "f")), (cs "signature", .str (cs "zz"))]
    (cs "f") (cs "zz") [97, 97, 97, 97] rfl rfl rfl (by decide)).mpr rfl

/-- A 2050-character hex signature. -/
def sig2050 : List Char := List.replicate 2050 '6'

/-- Any over-gate signature on an existing file is rejected as too big. -/
lemma check_too_big (fs : FS) (kvs : List (List Char × JVal)) (fp sig : List Char)
    (hfp : jlookup kvs (cs "file_path") = some (.str fp))
    (hsig : jlookup kvs (cs "signature") = some (.str sig))
    (hfile : fsIsFile fs fp = true)
    (hbig : max_signature_len * 2 < sig.length) :
    check_local_file fs (some (.obj kvs)) = .ok ⟨false, .str (cs "too_big_signature")⟩ := by
  rw [check_local_file, hfp, hsig]
  simp only [hfile, Bool.true_eq_false, if_false, pyLen, hbig, if_true]

/-- C4: the code's length gate is `len(signature) <= max_signature_len * 2`
with `max_signature_len = 1024`, i.e. 2048 hex characters (1 KiB of decoded
bytes) — not the claimed `2 × 1024 × 1024 = 2097152` characters.  A
2050-character signature is within the claimed cap yet rejected as
`"too_big_signature"` on an existing regular file. -/
theorem c4_signature_cap_eval :
    sig2050.length = 2050
    ∧ 2050 ≤ 2 * 1024 * 1024
    ∧ max_signature_len * 2 = 2048
    ∧ check_local_file fs0
        (some (.obj [(cs "file_path", .str (cs "f")), (cs "signature", .str sig2050)]))
      = .ok ⟨false, .str (cs "too_big_signature")⟩ := by
  have hl : sig2050.length = 2050 := by simp [sig2050]
  refine ⟨hl, by norm_num, rfl, ?_⟩
  exact check_too_big fs0 _ (cs "f") sig2050 rfl rfl rfl
    (by rw [hl]; norm_num [max_signature_len])

/-- C3: with `file_path` absent, `Path(params.get('file_path'))` is
`Path(None)` and raises `TypeError` before the `is None` check can run, so
dispatch catches the exception and answers `"error"`, not
`"incomplete_parameters"`; only a missing `signature` (with `file_path`
present) reaches the `"incomplete_parameters"` branch. -/
theorem c3_missing_file_path_eval :
    check_local_file fs0 (some (.obj [(cs "signature", .str (cs "61"))]))
      = .error .typeError
    ∧ dispatch qd0 fs0
        [(cs "name", .str (cs "CheckLocalFile")),
         (cs "params", .obj [(cs "signature", .str (cs "61"))])]
      = some (⟨false, .str (cs "error")⟩, fs0)
    ∧ check_local_file fs0 (some (.obj [(cs "file_path", .str (cs "f"))]))
      = .ok ⟨false, .str (cs "incomplete_parameters")⟩ :=
  ⟨rfl, rfl, rfl⟩

/-- C6 counterexample: a regular file already sitting at
`quarantine_dir/<basename>` (path `q/f`, quarantine directory `q`).
`shutil.move` renames the path onto itself, so the call reports `"moved"` but
the file is NOT removed from its original path, and a second call with the
same original path reports `"moved"` again instead of `"no_such_file"`. -/
theorem c6_counterexample :
    quarantine_local_file qd0 fsq paramsQ = .ok (⟨true, .str (cs "moved")⟩, fsq)
    ∧ fsRead fsq (cs "q/f") = some [1]
    ∧ quarantine_local_file qd0 fsq paramsQ = .ok (⟨true, .str (cs "moved")⟩, fsq) :=
  ⟨rfl, rfl, rfl⟩

/-- C6 (amended): when `file_path` names an existing regular file whose path
differs from `quarantine_dir/<basename>`, `QuarantineLocalFile` removes the
file from its original path, places its bytes at the joined destination, and
returns `{status: true, result: "moved"}`; a second call on the same original
path then returns `"no_such_file"` (non-idempotent).  When `file_path` does
not name an existing regular file the result is `"no_such_file"`, and any
other failure (here: a missing or non-string `file_path`, whose `Path()`
call raises inside the handler's own `try`) yields
`{status: false, result: "error"}`.  A file already at its own quarantine
destination is the exception: it is left in place and `"moved"` is returned
on every call. -/
theorem c6_quarantine_contract :
    (∀ (qd : List Char) (fs : FS) (kvs : List (List Char × JVal)) (fp : List Char)
        (v : List Nat),
      jlookup kvs (cs "file_path") = some (.str fp) →
      fsRead fs fp = some v →
      pathJoin qd (basename fp) ≠ fp →
      quarantine_local_file qd fs (some (.obj kvs))
          = .ok (⟨true, .str (cs "moved")⟩, fsMove fs fp (pathJoin qd (basename fp)))
        ∧ fsRead (fsMove fs fp (pathJoin qd (basename fp))) fp = none
        ∧ fsRead (fsMove fs fp (pathJoin qd (basename fp))) (pathJoin qd (basename fp))
            = some v
        ∧ quarantine_local_file qd (fsMove fs fp (pathJoin qd (basename fp)))
            (some (.obj kvs))
          = .ok (⟨false, .str (cs "no_such_file")⟩,
                 fsMove fs fp (pathJoin qd (basename fp))))
    ∧ (∀ (qd : List Char) (fs : FS) (kvs : List (List Char × JVal)) (fp : List Char),
        jlookup kvs (cs "file_path") = some (.str fp) →
        fsRead fs fp = none →
        quarantine_local_file qd fs (some (.obj kvs))
          = .ok (⟨false, .str (cs "no_such_file")⟩, fs))
    ∧ (∀ (qd : List Char) (fs : FS) (kvs : List (List Char × JVal)),
        jlookup kvs (cs "file_path") = none →
        quarantine_local_file qd fs (some (.obj kvs))
          = .ok (⟨false, .str (cs "error")⟩, fs)) := by
  refine ⟨?_, ?_, ?_⟩
  · intro qd fs kvs fp v hfp hv hne
    have hfile : fsIsFile fs fp = true := by rw [fsIsFile, hv]; rfl
    have hsrc : fsRead (fsMove fs fp (pathJoin qd (basename fp))) fp = none :=
      fsMove_read_src fs fp _ v hv hne
    have hfile2 : fsIsFile (fsMove fs fp (pathJoin qd (basename fp))) fp = false := by
      rw [fsIsFile, hsrc]; rfl
    refine ⟨?_, hsrc, fsMove_read_dst fs fp _ v hv, ?_⟩
    · rw [quarantine_local_file, hfp]
      exact if_pos hfile
    · rw [quarantine_local_file, hfp]
      exact if_neg (by simp [hfile2])
  · intro qd fs kvs fp hfp hnone
    have hfile : fsIsFile fs fp = false := by rw [fsIsFile, hnone]; rfl
    rw [quarantine_local_file, hfp]
    exact if_neg (by simp [hfile])
  · intro qd fs kvs hfp
    rw [quarantine_local_file, hfp]

/-- Witness for C6 (amended): moving `f` out of `fs0` into quarantine
directory `q` relocates it to `q/f`, and the follow-up call reports
`"no_such_file"`. -/
theorem c6_quarantine_contract_witness :
    quarantine_local_file qd0 fs0 (some (.obj [(cs "file_path", .str (cs "f"))]))
      = .ok (⟨true, .str (cs "moved")⟩, fsMove fs0 (cs "f") (cs "q/f"))
    ∧ fsRead (fsMove fs0 (cs "f") (cs "q/f")) (cs "f") = none
    ∧ fsRead (fsMove fs0 (cs "f") (cs "q/f")) (cs "q/f") = some [97, 97, 97, 97]
    ∧ quarantine_local_file qd0 (fsMove fs0 (cs "f") (cs "q/f"))
        (some (.obj [(cs "file_path", .str (cs "f"))]))
      = .ok (⟨false, .str (cs "no_such_file")⟩, fsMove fs0 (cs "f") (cs "q/f")) := by
  have h := c6_quarantine_contract.1 qd0 fs0
    [(cs "file_path", .str (cs "f"))] (cs "f") [97, 97, 97, 97] rfl rfl (by decide)
  exact h

/-- C5: for a parsed message (a JSON object whose `name` is a string, per the
spec's Message data model): an unknown command name answers
`{status: false, result: "wrong_command"}`; a handler that raises answers
`{status: false, result: "error"}` and the loop goes on to the next read; a
handler that returns answers exactly the returned structure. -/
theorem c5_dispatch_contract :
    (∀ (qd : List Char) (fs : FS) (kvs : List (List Char × JVal)) (s : List Char),
      jlookup kvs (cs "name") = some (.str s) →
      commands qd fs s = none →
      dispatch qd fs kvs = some (⟨false, .str (cs "wrong_command")⟩, fs))
    ∧ (∀ (qd : List Char) (fs : FS) (kvs : List (List Char × JVal)) (s : List Char)
        (h : Option JVal → Except PyExc (Response × FS)) (e : PyExc),
      jlookup kvs (cs "name") = some (.str s) →
      commands qd fs s = some h →
      h (jlookup kvs (cs "params")) = .error e →
      dispatch qd fs kvs = some (⟨false, .str (cs "error")⟩, fs))
    ∧ (∀ (qd : List Char) (fs fs2 : FS) (kvs : List (List Char × JVal)) (s : List Char)
        (h : Option JVal → Except PyExc (Response × FS)) (r : Response),
      jlookup kvs (cs "name") = some (.str s) →
      commands qd fs s = some h →
      h (jlookup kvs (cs "params")) = .ok (r, fs2) →
      dispatch qd fs kvs = some (r, fs2))
    ∧ (∀ (qd : List Char) (fs fs2 : FS) (buf c : List Char)
        (rest : List (List Char)) (kvs : List (List Char × JVal)) (r : Response),
      (buf ++ c).length ≤ bufferLimit →
      json_loads (buf ++ c) = some (.obj kvs) →
      dispatch qd fs kvs = some (r, fs2) →
      sessionRun qd fs buf (c :: rest)
        = (r :: (sessionRun qd fs2 [] rest).1, (sessionRun qd fs2 [] rest).2)) := by
  refine ⟨?_, ?_, ?_, ?_⟩
  · intro qd fs kvs s hname hcmd
    simp only [dispatch, hname, hcmd]
  · intro qd fs kvs s h e hname hcmd hrun
    simp only [dispatch, hname, hcmd, hrun]
  · intro qd fs fs2 kvs s h r hname hcmd hrun
    simp only [dispatch, hname, hcmd, hrun]
  · intro qd fs fs2 buf c rest kvs r hsize hparse hdisp
    have hnb : ¬ (bufferLimit < (buf ++ c).length) := by omega
    show (match sessionStep qd fs buf c with
          | .cont b2 oresp fs3 =>
            let t := sessionRun qd fs3 b2 rest
            (oresp.toList ++ t.1, t.2)
          | .crash fs3 => ([], fs3)) = _
    rw [sessionStep]
    simp only [hnb, if_false, hparse, hdisp]
    rfl

/-- Witness for C5: an unknown command gets `"wrong_command"`; a
`CheckLocalFile` call whose handler raises (missing `file_path`) gets
`"error"` and the session answers the next message too; a succeeding
`QuarantineLocalFile` handler's structure is passed through verbatim. -/
theorem c5_dispatch_contract_witness :
    dispatch qd0 fs0 [(cs "name", .str (cs "Nope"))]
      = some (⟨false, .str (cs "wrong_command")⟩, fs0)
    ∧ dispatch qd0 fs0
        [(cs "name", .str (cs "CheckLocalFile")),
         (cs "params", .obj [(cs "signature", .str (cs "61"))])]
      = some (⟨false, .str (cs "error")⟩, fs0)
    ∧ dispatch qd0 fs0
        [(cs "name", .str (cs "QuarantineLocalFile")),
         (cs "params", .obj [(cs "file_path", .str (cs "f"))])]
      = some (⟨true, .str (cs "moved")⟩, fsMove fs0 (cs "f") (cs "q/f"))
    ∧ sessionRun qd0 fs0 [] [docWrong, docWrong]
      = ([⟨false, .str (cs "wrong_command")⟩, ⟨false, .str (cs "wrong_command")⟩], fs0) := by
  refine ⟨?_, ?_, ?_, ?_⟩
  · exact c5_dispatch_contract.1 qd0 fs0 [(cs "name", .str (cs "Nope"))]
      (cs "Nope") rfl rfl
  · exact c5_dispatch_contract.2.1 qd0 fs0
      [(cs "name", .str (cs "CheckLocalFile")),
       (cs "params", .obj [(cs "signature", .str (cs "61"))])]
      (cs "CheckLocalFile")
      (fun p => (check_local_file fs0 p).map (fun r => (r, fs0))) .typeError
      rfl rfl rfl
  · exact c5_dispatch_contract.2.2.1 qd0 fs0 (fsMove fs0 (cs "f") (cs "q/f"))
      [(cs "name", .str (cs "QuarantineLocalFile")),
       (cs "params", .obj [(cs "file_path", .str (cs "f"))])]
      (cs "QuarantineLocalFile")
      (fun p => quarantine_local_file qd0 fs0 p)
      ⟨true, .str (cs "moved")⟩ rfl rfl rfl
  · have h := c5_dispatch_contract.2.2.2 qd0 fs0 fs0 [] docWrong [docWrong]
      [(cs "name", .str (cs "Nope"))] ⟨false, .str (cs "wrong_command")⟩
      (by decide) rfl rfl
    exact h.trans (by rfl)

/-- The buffer carried out of any read cycle is within the cap. -/
lemma sessionStep_buf_le (qd : List Char) (fs : FS) (buf c b2 : List Char)
    (oresp : Option Response) (fs2 : FS)
    (hstep : sessionStep qd fs buf c = .cont b2 oresp fs2) :
    b2.length ≤ bufferLimit := by
  rw [sessionStep] at hstep
  by_cases hover : bufferLimit < (buf ++ c).length
  · rw [if_pos hover] at hstep
    injection hstep with h1 _
    subst h1
    simp [bufferLimit]
  · rw [if_neg hover] at hstep
    cases hp : json_loads (buf ++ c) with
    | none =>
      rw [hp] at hstep
      injection hstep with h1 _
      subst h1
      omega
    | some v =>
      rw [hp] at hstep
      cases v with
      | obj kvs =>
        have hstep2 : (match dispatch qd fs kvs with
            | some (r, fs3) => StepOut.cont [] (some r) fs3
            | none => StepOut.crash fs) = StepOut.cont b2 oresp fs2 := hstep
        cases hd : dispatch qd fs kvs with
        | none => rw [hd] at hstep2; exact absurd hstep2 (by simp)
        | some rp =>
          obtain ⟨r, fs3⟩ := rp
          rw [hd] at hstep2
          injection hstep2 with h1 _
          subst h1
          simp [bufferLimit]
      | null => exact absurd hstep (by simp)
      | bool b => exact absurd hstep (by simp)
      | num n => exact absurd hstep (by simp)
      | flt raw => exact absurd hstep (by simp)
      | str s => exact absurd hstep (by simp)
      | arr xs => exact absurd hstep (by simp)

/-- C7: starting from an empty buffer, the receive buffer observed at the
start of every read cycle is within the 1 MiB cap; and whenever appending a
read makes the buffer exceed the cap, the whole buffer is cleared before any
parse is attempted — no response is sent and the filesystem is untouched, so
the discarded partial message is never completed or answered. -/
theorem c7_buffer_cap :
    (∀ (qd : List Char) (fs : FS) (chunks : List (List Char)),
      ∀ b ∈ sessionBufs qd fs [] chunks, b.length ≤ bufferLimit)
    ∧ (∀ (qd : List Char) (fs : FS) (buf c : List Char),
      bufferLimit < (buf ++ c).length →
      sessionStep qd fs buf c = .cont [] none fs) := by
  constructor
  · have key : ∀ (chunks : List (List Char)) (qd : List Char) (fs : FS)
        (buf : List Char), buf.length ≤ bufferLimit →
        ∀ b ∈ sessionBufs qd fs buf chunks, b.length ≤ bufferLimit := by
      intro chunks
      induction chunks with
      | nil =>
        intro qd fs buf hbuf b hb
        rw [sessionBufs] at hb
        rcases List.mem_singleton.mp hb with rfl
        exact hbuf
      | cons c rest ih =>
        intro qd fs buf hbuf b hb
        rw [sessionBufs] at hb
        rcases List.mem_cons.mp hb with rfl | hb2
        · exact hbuf
        · cases hstep : sessionStep qd fs buf c with
          | cont b2 oresp fs2 =>
            rw [hstep] at hb2
            exact ih qd fs2 b2 (sessionStep_buf_le qd fs buf c b2 oresp fs2 hstep) b hb2
          | crash fs2 =>
            rw [hstep] at hb2
            simp at hb2
    intro qd fs chunks
    exact key chunks qd fs [] (by simp [bufferLimit])
  · intro qd fs buf c hover
    rw [sessionStep]
    exact if_pos hover

/-- Witness for C7: a 1 MiB + 1 read overflows an empty buffer and the cycle
clears it without a response; the chunk list `["x"]` keeps every observed
buffer within the cap. -/
theorem c7_buffer_cap_witness :
    sessionStep qd0 fs0 [] (List.replicate (bufferLimit + 1) 'x') = .cont [] none fs0
    ∧ ([] : List Char).length ≤ bufferLimit := by
  constructor
  · exact c7_buffer_cap.2 qd0 fs0 [] (List.replicate (bufferLimit + 1) 'x')
      (by simp)
  · exact c7_buffer_cap.1 qd0 fs0 [cs "x"] [] (by rw [sessionBufs]; exact List.mem_cons_self _ _)

/-- C2 counterexample: three read cycles in which the accumulated buffer
parses as one complete document yet no response is produced — the document
`5` (not an object: `message.get` raises, terminating the session), the
object `{"name":[]}` (unhashable name: `command in self.commands` raises),
and an over-cap object (cleared before any parse is attempted). -/
theorem c2_counterexample :
    (json_loads docNum = some (.num 5) ∧ sessionStep qd0 fs0 [] docNum = .crash fs0)
    ∧ (json_loads docBadName = some (.obj [(cs "name", .arr [])])
       ∧ sessionStep qd0 fs0 [] docBadName = .crash fs0)
    ∧ (json_loads bigdoc = some bigObj
       ∧ bufferLimit < bigdoc.length
       ∧ sessionStep qd0 fs0 [] bigdoc = .cont [] none fs0) := by
  have hlen : bufferLimit < bigdoc.length := by
    rw [bigdoc_length]
    norm_num [bufferLimit, bigN]
  refine ⟨⟨rfl, rfl⟩, ⟨rfl, rfl⟩, json_loads_bigdoc, hlen, ?_⟩
  rw [sessionStep]
  exact if_pos (by rw [List.nil_append]; exact hlen)

/-- C2 (amended): in every read cycle at most one response is produced
(never two), and a response is produced exactly when the accumulated buffer
is within the 1 MiB cap, parses as one complete JSON object, and dispatch of
that object completes; a within-cap buffer that does not yet parse is kept
untouched with no response (split delivery is reassembled byte-for-byte);
and the response to a parsed message is sent before the next read is
processed. -/
theorem c2_framing :
    (∀ (qd : List Char) (fs : FS) (buf c : List Char),
      respCount (sessionStep qd fs buf c) ≤ 1)
    ∧ (∀ (qd : List Char) (fs : FS) (buf c : List Char),
      (∃ b2 r fs2, sessionStep qd fs buf c = .cont b2 (some r) fs2)
      ↔ ((buf ++ c).length ≤ bufferLimit
         ∧ ∃ kvs r fs2, json_loads (buf ++ c) = some (.obj kvs)
             ∧ dispatch qd fs kvs = some (r, fs2)))
    ∧ (∀ (qd : List Char) (fs : FS) (buf c : List Char),
      (buf ++ c).length ≤ bufferLimit → json_loads (buf ++ c) = none →
      sessionStep qd fs buf c = .cont (buf ++ c) none fs)
    ∧ (∀ (qd : List Char) (fs fs2 : FS) (buf c : List Char)
        (rest : List (List Char)) (kvs : List (List Char × JVal)) (r : Response),
      (buf ++ c).length ≤ bufferLimit →
      json_loads (buf ++ c) = some (.obj kvs) →
      dispatch qd fs kvs = some (r, fs2) →
      sessionRun qd fs buf (c :: rest)
        = (r :: (sessionRun qd fs2 [] rest).1, (sessionRun qd fs2 [] rest).2)) := by
  refine ⟨?_, ?_, ?_, ?_⟩
  · intro qd fs buf c
    cases sessionStep qd fs buf c with
    | cont b2 oresp fs2 => cases oresp <;> simp [respCount]
    | crash fs2 => simp [respCount]
  · intro qd fs buf c
    constructor
    · rintro ⟨b2, r, fs2, hstep⟩
      rw [sessionStep] at hstep
      by_cases hover : bufferLimit < (buf ++ c).length
      · rw [if_pos hover] at hstep
        exact absurd hstep (by simp)
      · rw [if_neg hover] at hstep
        refine ⟨by omega, ?_⟩
        cases hp : json_loads (buf ++ c) with
        | none =>
          rw [hp] at hstep
          exact absurd hstep (by simp)
        | some v =>
          rw [hp] at hstep
          cases v with
          | obj kvs =>
            have hstep2 : (match dispatch qd fs kvs with
                | some (r0, fs3) => StepOut.cont [] (some r0) fs3
                | none => StepOut.crash fs) = StepOut.cont b2 (some r) fs2 := hstep
            cases hd : dispatch qd fs kvs with
            | none => rw [hd] at hstep2; exact absurd hstep2 (by simp)
            | some rp =>
              obtain ⟨r0, fs3⟩ := rp
              rw [hd] at hstep2
              exact ⟨kvs, r0, fs3, rfl, hd⟩
          | null =>
            exact absurd (show StepOut.crash fs = .cont b2 (some r) fs2 from hstep) (by simp)
          | bool b =>
            exact absurd (show StepOut.crash fs = .cont b2 (some r) fs2 from hstep) (by simp)
          | num n =>
            exact absurd (show StepOut.crash fs = .cont b2 (some r) fs2 from hstep) (by simp)
          | flt raw =>
            exact absurd (show StepOut.crash fs = .cont b2 (some r) fs2 from hstep) (by simp)
          | str s =>
            exact absurd (show StepOut.crash fs = .cont b2 (some r) fs2 from hstep) (by simp)
          | arr xs =>
            exact absurd (show StepOut.crash fs = .cont b2 (some r) fs2 from hstep) (by simp)
    · rintro ⟨hsize, kvs, r, fs2, hp, hd⟩
      refine ⟨[], r, fs2, ?_⟩
      rw [sessionStep]
      have hnb : ¬ bufferLimit < (buf ++ c).length := by omega
      simp only [hnb, if_false, hp, hd]
  · intro qd fs buf c hsize hp
    rw [sessionStep]
    have hnb : ¬ bufferLimit < (buf ++ c).length := by omega
    simp only [hnb, if_false, hp]
  · intro qd fs fs2 buf c rest kvs r hsize hp hd
    have hnb : ¬ bufferLimit < (buf ++ c).length := by omega
    show (match sessionStep qd fs buf c with
          | .cont b2 oresp fs3 =>
            let t := sessionRun qd fs3 b2 rest
            (oresp.toList ++ t.1, t.2)
          | .crash fs3 => ([], fs3)) = _
    rw [sessionStep]
    simp only [hnb, if_false, hp, hd]
    rfl

/-- Witness for C2 (amended): a complete unknown-command object in one read
is answered at once; a strict prefix of an object is kept in the buffer with
no response; appending the remainder of the document in the next read then
produces the single response. -/
theorem c2_framing_witness :
    (∃ b2 r fs2, sessionStep qd0 fs0 [] docWrong = .cont b2 (some r) fs2)
    ∧ sessionStep qd0 fs0 [] (cs "\x7b\"na") = .cont (cs "\x7b\"na") none fs0
    ∧ sessionRun qd0 fs0 (cs "\x7b\"na") [cs "me\":\"Nope\"\x7d"]
      = ([⟨false, .str (cs "wrong_command")⟩], fs0) := by
  refine ⟨?_, ?_, ?_⟩
  · exact (c2_framing.2.1 qd0 fs0 [] docWrong).mpr
      ⟨by decide, [(cs "name", .str (cs "Nope"))],
       ⟨false, .str (cs "wrong_command")⟩, fs0, rfl, rfl⟩
  · exact c2_framing.2.2.1 qd0 fs0 [] (cs "\x7b\"na") (by decide) rfl
  · have h := c2_framing.2.2.2 qd0 fs0 fs0 (cs "\x7b\"na") (cs "me\":\"Nope\"\x7d") []
      [(cs "name", .str (cs "Nope"))] ⟨false, .str (cs "wrong_command")⟩
      (by decide) rfl rfl
    exact h.trans (by rfl)

/-! Spot checks of the embedded Python builtins on concrete values. -/

lemma fromhex_spaced : fromhex (cs "61 61") = some [97, 97] := rfl

lemma fromhex_split_pair : fromhex (cs "6 1") = none := rfl

lemma fromhex_odd : fromhex (cs "616") = none := rfl

lemma fromhex_empty : fromhex (cs "") = some [] := rfl

lemma findAll_overlap : findAll [97, 97, 97, 97] [97, 97] = [0, 1, 2] := rfl

lemma findAll_empty_sig : findAll [97, 97, 97, 97] [] = [0, 1, 2, 3, 4] := rfl

lemma json_loads_extra_data : json_loads (cs "\x7b\"a\": 1\x7d\x7b\"a\": 1\x7d") = none := rfl

lemma json_loads_incomplete : json_loads (cs "\x7b\"a\"") = none := rfl

lemma json_loads_object : json_loads (cs "\x7b\"a\": 1, \"b\": null\x7d")
    = some (.obj [(['a'], .num 1), (['b'], .null)]) := rfl

lemma jlookup_last_wins : jlookup [(['a'], .num 1), (['a'], .num 2)] ['a'] = some (.num 2) := rfl
